import Mathlib

/-!
Verification of the banking-operations analysis core.

This file gives a shallow embedding of the aggregation core of the
repository (src/views.py, src/services.py, src/reports.py, src/utils.py)
and proves/refutes the frozen behavioural claims about it.

Modelling conventions:
* A pandas DataFrame is a `DataFrame`: a list of column names (for the
  `'col' in df.columns` checks), a flag recording whether the
  'Дата операции' column has datetime64 dtype, and a list of rows.
* Each row carries the cells the core reads.  A cell that can be NaN/NaT
  is an `Option`.  The 'Сумма операции' cell is embedded as the outcome
  of `pd.to_numeric(·, errors='coerce')`: `some q` when the cell coerces
  to the number `q`, `none` when coercion yields NaN (the row is then
  dropped by `dropna`).  Decimal amounts are embedded as rationals.
* A `datetime` is a `DateTime` record of calendar fields (the formats the
  code parses have second resolution, so no microsecond field is needed).
  A Python date-string argument is embedded as its `strptime` parse
  outcome: `some d` when the string parses to `d`, `none` when `strptime`
  raised `ValueError`.  `datetime.now()` is an explicit `now` parameter.
* Python `str.lower` is `pyLower` (per-character lowering; total for the
  ASCII inputs used concretely here) and Python's substring test
  `needle in hay` is `pyIn`.
* Functions that in Python return a JSON string of a list
  (`simple_search_transactions`) are embedded as the list itself;
  `json.dumps` is presentation-only.
* Code that can raise to its caller is embedded with `Except`:
  `spending_by_category` raises `KeyError` when its final five-column
  projection meets an absent column, and `get_greeting` re-raises its
  `strptime` failures.
-/

/-- A naive calendar timestamp, mirroring `datetime.datetime` at second
resolution. -/
structure DateTime where
  year : ℕ
  month : ℕ
  day : ℕ
  hour : ℕ
  minute : ℕ
  second : ℕ
deriving DecidableEq

/-- Chronological comparison of timestamps (pandas/`datetime` ordering):
lexicographic on the calendar fields. -/
def DateTime.le (a b : DateTime) : Bool :=
  if a.year ≠ b.year then decide (a.year < b.year)
  else if a.month ≠ b.month then decide (a.month < b.month)
  else if a.day ≠ b.day then decide (a.day < b.day)
  else if a.hour ≠ b.hour then decide (a.hour < b.hour)
  else if a.minute ≠ b.minute then decide (a.minute < b.minute)
  else decide (a.second ≤ b.second)

/-- Gregorian leap-year test. -/
def isLeapYear (y : ℕ) : Bool := (y % 4 == 0 && y % 100 != 0) || y % 400 == 0

/-- Number of days of a month in the Gregorian calendar. -/
def daysInMonth (y m : ℕ) : ℕ :=
  if m == 2 then (if isLeapYear y then 29 else 28)
  else if m == 4 || m == 6 || m == 9 || m == 11 then 30
  else 31

/-- `end_date - pd.DateOffset(months=3)` (reports.py line 77): calendar
month subtraction with the day clamped to the length of the target month;
time-of-day fields are kept. -/
def subtractThreeMonths (d : DateTime) : DateTime :=
  let total := d.year * 12 + (d.month - 1) - 3
  let y := total / 12
  let m := total % 12 + 1
  ⟨y, m, min d.day (daysInMonth y m), d.hour, d.minute, d.second⟩

/-- `end_date.replace(day=1, hour=0, minute=0, second=0, microsecond=0)`
(views.py line 61): midnight on the first day of the end date's month. -/
def startOfMonth (d : DateTime) : DateTime := ⟨d.year, d.month, 1, 0, 0, 0⟩

/-- Python `str.lower`, applied character by character.  `Char.toLower`
lowers the ASCII range; the concrete strings this development evaluates it
on are chosen so that this agrees with Python. -/
def pyLower (s : String) : String := ⟨s.data.map Char.toLower⟩

/-- Does the character list `hay` start with `needle`? -/
def startsWithChars : List Char → List Char → Bool
  | [], _ => true
  | _ :: _, [] => false
  | a :: as, b :: bs => a == b && startsWithChars as bs

/-- Does `needle` occur as a contiguous subsequence of `hay`? -/
def hasSubChars : List Char → List Char → Bool
  | [], _ => true
  | a :: as, [] => startsWithChars (a :: as) []
  | a :: as, b :: bs => startsWithChars (a :: as) (b :: bs) || hasSubChars (a :: as) bs

/-- Python's substring test `needle in hay`. -/
def pyIn (needle hay : String) : Bool := hasSubChars needle.data hay.data

/-- Python banker's rounding of a rational to an integer (`round(q)`):
round to nearest, ties to the even integer. -/
def roundHalfEven (q : ℚ) : ℤ :=
  if q - ⌊q⌋ < 1/2 then ⌊q⌋
  else if 1/2 < q - ⌊q⌋ then ⌊q⌋ + 1
  else if Even ⌊q⌋ then ⌊q⌋ else ⌊q⌋ + 1

/-- Python `round(q, 2)`: round to the nearest hundredth, ties to even. -/
def round2 (q : ℚ) : ℚ := (roundHalfEven (100 * q) : ℚ) / 100

/-- One row of the operations table, restricted to the cells the core
reads.  `amount` is the `pd.to_numeric(·, errors='coerce')` outcome of
the 'Сумма операции' cell. -/
structure Row where
  opDate : Option DateTime
  card : Option String
  status : String
  amount : Option ℚ
  cashback : Option ℚ
  category : Option String
  mcc : Option String
  description : Option String
deriving DecidableEq

/-- An in-memory pandas DataFrame of operations. -/
structure DataFrame where
  cols : List String
  dateTyped : Bool
  rows : List Row
deriving DecidableEq

/-- `'c' in df.columns`. -/
def hasCol (df : DataFrame) (c : String) : Bool := df.cols.contains c

/-- `pd.DataFrame()`: the freshly constructed empty frame. -/
def emptyDF : DataFrame := ⟨[], false, []⟩

/-- `r` is kept by the month-to-date window mask of
`filter_operations_by_month` (views.py line 67); a NaT timestamp compares
false on both bounds and is dropped. -/
def inMonthWindow (endDate : DateTime) (r : Row) : Bool :=
  match r.opDate with
  | some t => DateTime.le (startOfMonth endDate) t && DateTime.le t endDate
  | none => false

/-- views.py `filter_operations_by_month` (lines 54-76).  The
`end_date_str` argument is embedded as its parse outcome: `none` models a
string `strptime` rejects, in which case the `except ValueError` branch
returns `pd.DataFrame()`. -/
def filter_operations_by_month (df : DataFrame) (endDateParse : Option DateTime) : DataFrame :=
  match endDateParse with
  | none => emptyDF
  | some endDate =>
    if !(hasCol df "Дата операции" && df.dateTyped) then emptyDF
    else ⟨df.cols, df.dateTyped, df.rows.filter (inMonthWindow endDate)⟩

/-- `pd.to_numeric(df['Сумма операции'], errors='coerce')` followed by
`dropna(subset=['Сумма операции'])`: keeps each row paired with its
coerced amount, dropping rows whose amount does not coerce. -/
def toNumericRows (rows : List Row) : List (Row × ℚ) :=
  rows.filterMap (fun r => r.amount.map (fun a => (r, a)))

/-- `df_copy[df_copy['Сумма операции'] < 0]` after coercion: the expense
rows of `analyze_card_data`. -/
def expenseRows (rows : List Row) : List (Row × ℚ) :=
  (toNumericRows rows).filter (fun p => decide (p.2 < 0))

/-- The keys of `groupby('Номер карты')`: the distinct card values among
the grouped rows, NaN keys dropped, iterated in ascending order. -/
def cardKeys (ps : List (Row × ℚ)) : List String :=
  ((ps.filterMap (fun p => p.1.card)).dedup).mergeSort (fun a b => decide (a ≤ b))

/-- The coerced amounts of the group of card `k`. -/
def cardGroupAmounts (ps : List (Row × ℚ)) (k : String) : List ℚ :=
  (ps.filter (fun p => p.1.card == some k)).map (fun p => p.2)

/-- One per-card summary produced by `analyze_card_data` (views.py lines
100-109). -/
structure CardSummary where
  last_digits : String
  total_spent : ℚ
  cashback : ℚ
deriving DecidableEq

/-- The summary of one card group: `str(card_num)[-4:]`,
`abs(group['Сумма операции'].sum())` rounded to 2 places, and
`round(total_spent / 100, 2)` — 1 unit of cashback per 100 spent. -/
def mkCardSummary (ps : List (Row × ℚ)) (k : String) : CardSummary :=
  let total := |(cardGroupAmounts ps k).sum|
  ⟨String.takeRight k 4, round2 total, round2 (total / 100)⟩

/-- views.py `analyze_card_data` (lines 79-112): requires the card and
amount columns, keeps the coercible negative amounts, groups them by card
and summarizes each group. -/
def analyze_card_data (df : DataFrame) : List CardSummary :=
  if !(hasCol df "Номер карты") || !(hasCol df "Сумма операции") then []
  else if (expenseRows df.rows).isEmpty then []
  else (cardKeys (expenseRows df.rows)).map (mkCardSummary (expenseRows df.rows))

/-- The column list `required_cols` of `get_top_transactions`
(views.py lines 117-132). -/
def requiredTopCols : List String :=
  [ "Дата операции", "Дата платежа", "Номер карты", "Статус",
    "Сумма операции", "Валюта операции", "Сумма платежа", "Валюта платежа",
    "Кэшбэк", "Категория", "MCC", "Описание",
    "Бонусы (включая кэшбэк)", "Округление на инвесткопилку",
    "Сумма операции с округлением" ]

/-- Zero-padded two-digit decimal rendering, as in `strftime`. -/
def pad2 (n : ℕ) : String := if n < 10 then "0" ++ toString n else toString n

/-- `strftime("%d.%m.%Y")` (the years handled here have four digits). -/
def fmtDate (d : DateTime) : String :=
  pad2 d.day ++ "." ++ pad2 d.month ++ "." ++ toString d.year

/-- The `category_val` display string shared by the top-transactions and
search formatters: "Категория (MCC)" when both are present, whichever is
present otherwise, and "Неизвестно" when neither is. -/
def combineCategoryMcc (cat mcc : Option String) : String :=
  match cat, mcc with
  | some c, some m => c ++ " (" ++ m ++ ")"
  | some c, none => c
  | none, some m => m
  | none, none => "Неизвестно"

/-- One formatted entry of the top-transactions list (views.py lines
156-161). -/
structure TopEntry where
  date : Option String
  amount : ℚ
  category : String
  description : String
deriving DecidableEq

/-- Formats one selected row as a top-transactions entry. -/
def mkTopEntry (p : Row × ℚ) : TopEntry :=
  ⟨p.1.opDate.map fmtDate, round2 p.2,
   combineCategoryMcc p.1.category p.1.mcc,
   p.1.description.getD "Нет описания"⟩

/-- `sort_values(by='abs_amount', ascending=False)`: rank the coerced
rows by absolute amount, descending.  (pandas' default sort does not
promise a tie order; the properties proved below hold for any order of
equal keys.) -/
def sortByAbsDesc (ps : List (Row × ℚ)) : List (Row × ℚ) :=
  ps.mergeSort (fun x y => decide (|y.2| ≤ |x.2|))

/-- views.py `get_top_transactions` (lines 115-164): requires all fifteen
columns, coerces amounts dropping failures, ranks every remaining row by
absolute amount descending — with no restriction to negative amounts —
and formats the first `top_n`. -/
def get_top_transactions (df : DataFrame) (top_n : ℕ := 5) : List TopEntry :=
  if !(requiredTopCols.all (fun c => hasCol df c)) then []
  else ((sortByAbsDesc (toNumericRows df.rows)).take top_n).map mkTopEntry

/-- One value of a transaction dict as read by
`simple_search_transactions`: the key can be absent, hold NaN, or hold a
string. -/
inductive StrCell where
  | missing : StrCell
  | nan : StrCell
  | val : String → StrCell
deriving DecidableEq

/-- `str(transaction.get(key, ''))`: an absent key yields the empty
string, NaN prints as "nan", a string is itself. -/
def StrCell.asMatchStr : StrCell → String
  | .missing => ""
  | .nan => "nan"
  | .val s => s

/-- One transaction dict passed to `simple_search_transactions` (in the
application these are `DataFrame.to_dict('records')` rows, but the
function accepts any dicts). -/
structure STxn where
  opDate : Option DateTime
  amount : Option ℚ
  category : StrCell
  mcc : StrCell
  description : StrCell
deriving DecidableEq

/-- The match test of services.py line 125: the lowered query occurs in
the lowered description or in the lowered category. -/
def matchesQuery (lowerQ : String) (t : STxn) : Bool :=
  pyIn lowerQ (pyLower t.description.asMatchStr) ||
  pyIn lowerQ (pyLower t.category.asMatchStr)

/-- The `category_display` of services.py lines 135-137 (`pd.notna` holds
only of an actual string value). -/
def displayCategory (t : STxn) : String :=
  match t.category, t.mcc with
  | .val c, .val m => c ++ " (" ++ m ++ ")"
  | .val c, _ => c
  | _, .val m => m
  | _, _ => "Неизвестно"

/-- `transaction.get('Описание', 'Нет описания')` (services.py line 139):
the default applies only when the key is absent; a NaN value is passed
through. -/
def displayDescription (t : STxn) : StrCell :=
  match t.description with
  | .missing => .val "Нет описания"
  | c => c

/-- One formatted search result (services.py lines 141-146). -/
structure FoundEntry where
  date : Option String
  amount : Option ℚ
  category : String
  description : StrCell
deriving DecidableEq

/-- Formats one matched transaction. -/
def mkFoundEntry (t : STxn) : FoundEntry :=
  ⟨t.opDate.map fmtDate, t.amount.map round2, displayCategory t, displayDescription t⟩

/-- services.py `simple_search_transactions` (lines 111-149), embedded as
the list the source serializes with `json.dumps`. -/
def simple_search_transactions (transactions : List STxn) (search_query : String) :
    List FoundEntry :=
  (transactions.filter (matchesQuery (pyLower search_query))).map mkFoundEntry

/-- The dynamically typed argument `utils.get_greeting` receives: either
a string (embedded as its parse outcome) or a `datetime` object. -/
inductive PyTimeArg where
  | str : Option DateTime → PyTimeArg
  | dt : DateTime → PyTimeArg

/-- A Python exception of the kinds relevant here. -/
inductive PyExn where
  | valueError : PyExn
  | typeError : PyExn
  | keyError : PyExn
deriving DecidableEq

/-- `datetime.strptime(x, "%Y-%m-%d %H:%M:%S")` on a dynamically typed
`x`: a non-string argument raises `TypeError`; a string that does not
match the format raises `ValueError`. -/
def strptimeArg : PyTimeArg → Except PyExn DateTime
  | .str (some d) => .ok d
  | .str none => .error .valueError
  | .dt _ => .error .typeError

/-- The hour buckets of utils.py `get_greeting` (lines 82-89). -/
def greetingOfHour (hour : ℕ) : String :=
  if 5 ≤ hour ∧ hour < 12 then "Доброе утро"
  else if 12 ≤ hour ∧ hour < 18 then "Добрый день"
  else if 18 ≤ hour ∧ hour < 23 then "Добрый вечер"
  else "Доброй ночи"

/-- utils.py `get_greeting` (lines 69-92): parses its argument with
`strptime` and buckets the hour; its `except ValueError` handler only
logs and re-raises, so every `strptime` failure propagates. -/
def get_greeting (a : PyTimeArg) : Except PyExn String :=
  match strptimeArg a with
  | .ok d => .ok (greetingOfHour d.hour)
  | .error e => .error e

/-- The greeting field of views.py `generate_main_page_json` (lines
171-179): the date string is parsed (embedded as its parse outcome), and
`get_greeting` is called with the resulting `datetime` OBJECT — not a
string — so inside `get_greeting` the second `strptime` raises
`TypeError`, which the blanket `except Exception` of views.py catches,
falling back to "Привет!". -/
def generate_main_page_greeting (dateParse : Option DateTime) : String :=
  match dateParse with
  | none => "Привет!"
  | some d =>
    match get_greeting (.dt d) with
    | .ok g => g
    | .error _ => "Привет!"

/-- One row of the report returned by `spending_by_category`
(the projection `[['Дата операции', 'Сумма операции', 'Категория',
'Описание', 'MCC']]` of reports.py line 122, with the coerced amount). -/
structure ReportRow where
  opDate : Option DateTime
  amount : ℚ
  category : Option String
  description : Option String
  mcc : Option String
deriving DecidableEq

/-- `filtered['Категория'].astype(str)` on one cell: NaN prints as
"nan". -/
def pyStrOfCell : Option String → String
  | none => "nan"
  | some s => s

/-- `r` is kept by the three-month window mask of `spending_by_category`
(reports.py lines 85-88); a NaT timestamp is dropped. -/
def inReportWindow (startDate endDate : DateTime) (r : Row) : Bool :=
  match r.opDate with
  | some t => DateTime.le startDate t && DateTime.le t endDate
  | none => false

/-- The reference date `spending_by_category` ends its window at: the
parsed date string when given and well formed, otherwise
`datetime.now()` (also when the string is malformed — the
`except ValueError` branch of reports.py lines 71-73). -/
def reportEndDate (dateParse : Option (Option DateTime)) (now : DateTime) : DateTime :=
  match dateParse with
  | some (some d) => d
  | some none => now
  | none => now

/-- The projection list of reports.py line 122:
`expenses_df[['Дата операции', 'Сумма операции', 'Категория', 'Описание',
'MCC']]`.  pandas raises `KeyError` if any of these columns is absent. -/
def reportCols : List String :=
  ["Дата операции", "Сумма операции", "Категория", "Описание", "MCC"]

/-- reports.py `spending_by_category` (lines 56-122).  `dateParse` embeds
the optional date string: `none` is Python `None`, `some none` a
malformed string, `some (some d)` a string parsing to `d`.  The function
is fallible: the final five-column projection of line 122 checks only
columns the earlier guards did not ('Описание' and 'MCC' are never
tested), so when the pipeline reaches it with one of them absent the real
function raises `KeyError` to its caller — embedded as `Except.error`. -/
def spending_by_category (transactions : DataFrame) (category : String)
    (dateParse : Option (Option DateTime)) (now : DateTime) :
    Except PyExn (List ReportRow) :=
  if transactions.rows.isEmpty then .ok []
  else
    let endDate := reportEndDate dateParse now
    let startDate := subtractThreeMonths endDate
    if !(hasCol transactions "Дата операции" && transactions.dateTyped) then .ok []
    else
      let filteredByDate := transactions.rows.filter (inReportWindow startDate endDate)
      if filteredByDate.isEmpty then .ok []
      else if !(hasCol transactions "Категория") then .ok []
      else
        let filteredByCategory := filteredByDate.filter
          (fun r => pyLower (pyStrOfCell r.category) == pyLower category)
        if filteredByCategory.isEmpty then .ok []
        else if hasCol transactions "Сумма операции" then
          let expenses := (toNumericRows filteredByCategory).filter (fun p => decide (p.2 < 0))
          if expenses.isEmpty then .ok []
          else if reportCols.all (fun col => hasCol transactions col) then
            .ok (expenses.map (fun p => ⟨p.1.opDate, p.2, p.1.category, p.1.description, p.1.mcc⟩))
          else .error .keyError
        else .ok []

/-- The claim's reading of a card's total cashback (spec §4.3a): the sum
of the card's cashback-field values, missing treated as zero and negative
values replaced by their absolute value.  Stated from the spec's words,
for comparison with what `analyze_card_data` actually reports. -/
def specCashbackFieldSum (df : DataFrame) (k : String) : ℚ :=
  ((df.rows.filter (fun r => r.card == some k)).map (fun r => |r.cashback.getD 0|)).sum

/-- The claim's reading of the conservation total (spec §8): the sum of
the absolute values of the negative amounts over the OK-status rows.
Stated from the spec's words, for comparison with the per-card totals. -/
def specOkAbsNegSum (df : DataFrame) : ℚ :=
  ((((df.rows.filter (fun r => r.status == "OK")).filterMap
      (fun r => r.amount)).filter (fun a => decide (a < 0))).map (fun a => -a)).sum

/-- The sum of the absolute values of the negative coercible amounts over
all rows of the frame, no status restriction. -/
def totalAbsNegAmounts (df : DataFrame) : ℚ :=
  (((df.rows.filterMap (fun r => r.amount)).filter
      (fun a => decide (a < 0))).map (fun a => -a)).sum

/-- The total the summary of card `k` reports before rounding: the sum of
the absolute values of the negative coercible amounts of the rows carrying
card `k`. -/
def cardAbsNegTotal (df : DataFrame) (k : String) : ℚ :=
  ((((df.rows.filter (fun r => r.card == some k)).filterMap
      (fun r => r.amount)).filter (fun a => decide (a < 0))).map (fun a => -a)).sum

/-- Concrete frames and transactions used to instantiate the claims. -/
def rowC1 : Row := ⟨none, some "1234", "OK", some (-100), some 50, none, none, none⟩

/-- A frame with one expense of 100 on card "1234" whose cashback cell
holds 50. -/
def dfC1 : DataFrame := ⟨["Номер карты", "Сумма операции", "Кэшбэк"], false, [rowC1]⟩

/-- A credit (positive amount) row. -/
def rowC2 : Row := ⟨none, some "5678", "OK", some 500, none, some "Зарплата", none, some "Доход"⟩

/-- A frame with all fifteen required columns and a single credit row. -/
def dfTop : DataFrame := ⟨requiredTopCols, true, [rowC2]⟩

/-- A single small expense row. -/
def rowC2w : Row := ⟨none, some "0001", "OK", some (-3), none, none, none, none⟩

/-- A frame with all fifteen required columns and a single expense row. -/
def dfTopW : DataFrame := ⟨requiredTopCols, true, [rowC2w]⟩

/-- A transaction whose description and category both hold text. -/
def txnA : STxn := ⟨none, none, .val "Food", .missing, .val "Dinner at cafe"⟩

/-- A transaction matched only through its category. -/
def txnB : STxn := ⟨none, none, .val "xyz", .missing, .val "abc"⟩

/-- An expense row dated 2024-07-01 in category "food". -/
def rowC5 : Row := ⟨some ⟨2024, 7, 1, 10, 0, 0⟩, none, "OK", some (-100), none, some "food", none, some "Shop A"⟩

/-- A frame for the category-spend claim, carrying all five projected
columns. -/
def dfC5 : DataFrame :=
  ⟨["Дата операции", "Категория", "Сумма операции", "Описание", "MCC"], true, [rowC5]⟩

/-- A frame with a surviving expense but no 'Описание' or 'MCC' column:
the shape on which the category report's final projection raises
`KeyError`. -/
def dfNoDesc : DataFrame :=
  ⟨["Дата операции", "Категория", "Сумма операции"], true, [rowC5]⟩

/-- Reference date 2024-07-15 00:00:00. -/
def endC5 : DateTime := ⟨2024, 7, 15, 0, 0, 0⟩

/-- An unrelated clock value. -/
def nowC5 : DateTime := ⟨2024, 1, 1, 0, 0, 0⟩

/-- A FAILED-status expense row dated inside December 2021. -/
def rowC6 : Row := ⟨some ⟨2021, 12, 15, 12, 0, 0⟩, some "9999", "FAILED", some (-100), none, none, none, none⟩

/-- A frame whose only (FAILED) expense survives the December window. -/
def dfC6 : DataFrame := ⟨["Дата операции", "Номер карты", "Сумма операции"], true, [rowC6]⟩

/-- End date 2021-12-31 23:59:59. -/
def endC6 : DateTime := ⟨2021, 12, 31, 23, 59, 59⟩

/-- The December window image of dfC6. -/
def dfC6f : DataFrame := ⟨["Дата операции", "Номер карты", "Сумма операции"], true, [rowC6]⟩

/-- An OK-status expense of 0.02 hundredths granularity on card "1111". -/
def rowC6w : Row := ⟨none, some "1111", "OK", some (-2), none, none, none, none⟩

/-- A frame satisfying the conservation hypotheses. -/
def dfC6w : DataFrame := ⟨["Номер карты", "Сумма операции"], false, [rowC6w]⟩

/-- A frame lacking the 'Дата операции' column. -/
def dfNoDate : DataFrame := ⟨["Категория", "Сумма операции"], false, [rowC5]⟩

/-- A frame lacking the 'Номер карты' column. -/
def dfNoCard : DataFrame := ⟨["Сумма операции"], false, [rowC6w]⟩

/-- A row inside the December 2021 month-to-date window. -/
def rowC10a : Row := ⟨some ⟨2021, 12, 5, 8, 30, 0⟩, none, "OK", none, none, none, none, none⟩

/-- A row just before the start of December 2021. -/
def rowC10b : Row := ⟨some ⟨2021, 11, 30, 23, 59, 59⟩, none, "OK", none, none, none, none, none⟩

/-- A frame with one row in the window and one before it. -/
def dfC10 : DataFrame := ⟨["Дата операции"], true, [rowC10a, rowC10b]⟩

/-- End date 2021-12-31 23:59:59 for the month-to-date filter. -/
def endC10 : DateTime := ⟨2021, 12, 31, 23, 59, 59⟩

theorem mem_toNumericRows {rows : List Row} {p : Row × ℚ} :
    p ∈ toNumericRows rows ↔ p.1 ∈ rows ∧ p.1.amount = some p.2 := by
  cases p with
  | mk r a =>
    simp only [toNumericRows, List.mem_filterMap]
    constructor
    · rintro ⟨r0, hr0, hmap⟩
      cases ha : r0.amount with
      | none => rw [ha] at hmap; simp at hmap
      | some b =>
        rw [ha] at hmap
        simp at hmap
        cases hmap.1
        cases hmap.2
        exact ⟨hr0, ha⟩
    · rintro ⟨hr, ha⟩
      exact ⟨r, hr, by rw [ha]; rfl⟩

theorem sum_nonpos_of_all_neg {l : List ℚ} (h : ∀ x ∈ l, x < 0) : l.sum ≤ 0 := by
  induction l with
  | nil => simp
  | cons a t ih =>
    have ha := h a (by simp)
    have ht := ih (fun x hx => h x (by simp [hx]))
    simp only [List.sum_cons]
    linarith

theorem abs_sum_of_all_neg {l : List ℚ} (h : ∀ x ∈ l, x < 0) :
    |l.sum| = (l.map (fun a => -a)).sum := by
  rw [abs_of_nonpos (sum_nonpos_of_all_neg h)]
  induction l with
  | nil => simp
  | cons a t ih =>
    simp only [List.sum_cons, List.map_cons, neg_add]
    rw [ih (fun x hx => h x (by simp [hx]))]

theorem sum_single_key {keys : List String} {k0 : String} (v : ℚ)
    (hnd : keys.Nodup) (hmem : k0 ∈ keys) :
    (keys.map (fun k => if k0 = k then v else 0)).sum = v := by
  induction keys with
  | nil => simp at hmem
  | cons k ks ih =>
    simp only [List.map_cons, List.sum_cons]
    rcases List.mem_cons.mp hmem with rfl | hmem2
    · have hnot : k0 ∉ ks := (List.nodup_cons.mp hnd).1
      have : ∀ x ∈ ks.map (fun k => if k0 = k then v else 0), x = 0 := by
        intro x hx
        rcases List.mem_map.mp hx with ⟨k1, hk1, hk1x⟩
        have : k0 ≠ k1 := fun he => hnot (he ▸ hk1)
        simpa [this] using hk1x.symm
      rw [List.sum_eq_zero this]
      simp
    · have hne : k0 ≠ k := by
        rintro rfl
        exact (List.nodup_cons.mp hnd).1 hmem2
      rw [ih (List.nodup_cons.mp hnd).2 hmem2]
      simp [hne]

theorem fiberwise_sum {α : Type} (key : α → Option String) (f : α → ℚ)
    (l : List α) (keys : List String) (hnd : keys.Nodup)
    (hcov : ∀ x ∈ l, ∃ k ∈ keys, key x = some k) :
    (keys.map (fun k => ((l.filter (fun x => key x == some k)).map f).sum)).sum
      = (l.map f).sum := by
  induction l with
  | nil => simp [List.sum_eq_zero]
  | cons x t ih =>
    obtain ⟨k0, hk0, hkey⟩ := hcov x (by simp)
    have step : ∀ k : String,
        ((List.filter (fun y => key y == some k) (x :: t)).map f).sum
          = (if k0 = k then f x else 0)
            + ((t.filter (fun y => key y == some k)).map f).sum := by
      intro k
      by_cases hk : k0 = k
      · subst hk
        rw [List.filter_cons_of_pos (by simp [hkey])]
        simp
      · have : (key x == some k) = false := by
          simp only [hkey, beq_iff_eq, Option.some.injEq]
          exact decide_eq_false hk
        rw [List.filter_cons_of_neg (by simp [this])]
        simp [hk]
    calc (keys.map (fun k => ((List.filter (fun y => key y == some k) (x :: t)).map f).sum)).sum
        = (keys.map (fun k => (if k0 = k then f x else 0)
            + ((t.filter (fun y => key y == some k)).map f).sum)).sum := by
          congr 1
          exact List.map_congr_left (fun k _ => step k)
      _ = (keys.map (fun k => if k0 = k then f x else 0)).sum
            + (keys.map (fun k => ((t.filter (fun y => key y == some k)).map f).sum)).sum := by
          rw [← List.sum_map_add]
      _ = f x + (t.map f).sum := by
          rw [sum_single_key (f x) hnd hk0,
              ih (fun y hy => hcov y (by simp [hy]))]
      _ = ((x :: t).map f).sum := by simp

theorem round2_hundredth (z : ℤ) : round2 ((z : ℚ) / 100) = (z : ℚ) / 100 := by
  have h100 : (100 : ℚ) * ((z : ℚ) / 100) = (z : ℚ) := by ring
  have hfl : ⌊(z : ℚ)⌋ = z := Int.floor_intCast z
  have hfrac : (z : ℚ) - ⌊(z : ℚ)⌋ < 1 / 2 := by
    rw [hfl]
    norm_num
  rw [round2, h100, roundHalfEven, if_pos hfrac, hfl]

theorem sum_hundredths {l : List ℚ} (h : ∀ x ∈ l, ∃ z : ℤ, x = (z : ℚ) / 100) :
    ∃ z : ℤ, l.sum = (z : ℚ) / 100 := by
  induction l with
  | nil => exact ⟨0, by simp⟩
  | cons a t ih =>
    obtain ⟨z1, hz1⟩ := h a (by simp)
    obtain ⟨z2, hz2⟩ := ih (fun x hx => h x (by simp [hx]))
    refine ⟨z1 + z2, ?_⟩
    simp only [List.sum_cons, hz1, hz2]
    push_cast
    ring

theorem toNumericRows_cons_none {r : Row} {t : List Row} (ha : r.amount = none) :
    toNumericRows (r :: t) = toNumericRows t := by
  simp [toNumericRows, ha]

theorem toNumericRows_cons_some {r : Row} {t : List Row} {a : ℚ} (ha : r.amount = some a) :
    toNumericRows (r :: t) = (r, a) :: toNumericRows t := by
  simp [toNumericRows, ha]

theorem expense_group_list (rows : List Row) (k : String) :
    ((expenseRows rows).filter (fun p => p.1.card == some k)).map (fun p => -p.2)
      = (((rows.filter (fun r => r.card == some k)).filterMap
          (fun r => r.amount)).filter (fun a => decide (a < 0))).map (fun a => -a) := by
  induction rows with
  | nil => rfl
  | cons r t ih =>
    by_cases hc : r.card = some k
    · rw [List.filter_cons_of_pos (by simp [hc])]
      cases ha : r.amount with
      | none =>
        rw [show expenseRows (r :: t) = expenseRows t from by
              rw [expenseRows, toNumericRows_cons_none ha]
              rfl]
        rw [List.filterMap_cons_none (by simpa using ha)]
        exact ih
      | some a =>
        rw [List.filterMap_cons_some (by simpa using ha)]
        by_cases hneg : a < 0
        · rw [show expenseRows (r :: t) = (r, a) :: expenseRows t from by
                rw [expenseRows, toNumericRows_cons_some ha,
                    List.filter_cons_of_pos (by simpa using hneg)]
                rfl]
          rw [List.filter_cons_of_pos (by simp [hc]),
              List.filter_cons_of_pos (by simpa using hneg)]
          simpa using ih
        · rw [show expenseRows (r :: t) = expenseRows t from by
                rw [expenseRows, toNumericRows_cons_some ha,
                    List.filter_cons_of_neg (by simpa using hneg)]
                rfl]
          rw [List.filter_cons_of_neg (by simpa using hneg)]
          exact ih
    · rw [List.filter_cons_of_neg (by simp [hc])]
      cases ha : r.amount with
      | none =>
        rw [show expenseRows (r :: t) = expenseRows t from by
              rw [expenseRows, toNumericRows_cons_none ha]
              rfl]
        exact ih
      | some a =>
        by_cases hneg : a < 0
        · rw [show expenseRows (r :: t) = (r, a) :: expenseRows t from by
                rw [expenseRows, toNumericRows_cons_some ha,
                    List.filter_cons_of_pos (by simpa using hneg)]
                rfl]
          rw [List.filter_cons_of_neg (by simp [hc])]
          exact ih
        · rw [show expenseRows (r :: t) = expenseRows t from by
                rw [expenseRows, toNumericRows_cons_some ha,
                    List.filter_cons_of_neg (by simpa using hneg)]
                rfl]
          exact ih

theorem expense_all_list (rows : List Row) :
    (expenseRows rows).map (fun p => -p.2)
      = ((rows.filterMap (fun r => r.amount)).filter
          (fun a => decide (a < 0))).map (fun a => -a) := by
  induction rows with
  | nil => rfl
  | cons r t ih =>
    cases ha : r.amount with
    | none =>
      rw [show expenseRows (r :: t) = expenseRows t from by
            rw [expenseRows, toNumericRows_cons_none ha]
            rfl]
      rw [List.filterMap_cons_none (by simpa using ha)]
      exact ih
    | some a =>
      rw [List.filterMap_cons_some (by simpa using ha)]
      by_cases hneg : a < 0
      · rw [show expenseRows (r :: t) = (r, a) :: expenseRows t from by
              rw [expenseRows, toNumericRows_cons_some ha,
                  List.filter_cons_of_pos (by simpa using hneg)]
              rfl]
        rw [List.filter_cons_of_pos (by simpa using hneg)]
        simpa using ih
      · rw [show expenseRows (r :: t) = expenseRows t from by
              rw [expenseRows, toNumericRows_cons_some ha,
                  List.filter_cons_of_neg (by simpa using hneg)]
              rfl]
        rw [List.filter_cons_of_neg (by simpa using hneg)]
        exact ih

theorem mem_expenseRows {rows : List Row} {p : Row × ℚ} (h : p ∈ expenseRows rows) :
    p.1 ∈ rows ∧ p.1.amount = some p.2 ∧ p.2 < 0 := by
  have h1 := List.mem_filter.mp h
  have h2 := mem_toNumericRows.mp h1.1
  exact ⟨h2.1, h2.2, by simpa using h1.2⟩

theorem card_group_total (df : DataFrame) (k : String) :
    |(cardGroupAmounts (expenseRows df.rows) k).sum| = cardAbsNegTotal df k := by
  have hneg : ∀ x ∈ cardGroupAmounts (expenseRows df.rows) k, x < 0 := by
    intro x hx
    simp only [cardGroupAmounts, List.mem_map] at hx
    obtain ⟨p, hp, hpx⟩ := hx
    have hm := mem_expenseRows (List.mem_filter.mp hp).1
    exact hpx ▸ hm.2.2
  rw [abs_sum_of_all_neg hneg, cardGroupAmounts, List.map_map]
  rw [cardAbsNegTotal, ← expense_group_list]
  rfl

theorem spending_mem {df : DataFrame} {c : String} {dp : Option (Option DateTime)}
    {now : DateTime} {l : List ReportRow} {rr : ReportRow}
    (hok : spending_by_category df c dp now = Except.ok l) (h : rr ∈ l) :
    ∃ r0 ∈ df.rows, r0.amount = some rr.amount ∧ rr.amount < 0 ∧
      rr.opDate = r0.opDate ∧ rr.category = r0.category ∧
      pyLower (pyStrOfCell rr.category) = pyLower c ∧
      ∃ t, rr.opDate = some t ∧
        DateTime.le (subtractThreeMonths (reportEndDate dp now)) t = true ∧
        DateTime.le t (reportEndDate dp now) = true := by
  simp only [spending_by_category] at hok
  split_ifs at hok
  all_goals try (injection hok with hl
                 subst hl
                 exact absurd h (List.not_mem_nil rr))
  injection hok with hl
  subst hl
  rcases List.mem_map.mp h with ⟨p, hp, hmk⟩
  have hexp := mem_expenseRows (show p ∈ expenseRows
    ((df.rows.filter (inReportWindow (subtractThreeMonths (reportEndDate dp now))
      (reportEndDate dp now))).filter
      (fun r => pyLower (pyStrOfCell r.category) == pyLower c)) from hp)
  obtain ⟨hmem2, hamt, hneg⟩ := hexp
  have hcat := List.mem_filter.mp hmem2
  have hdate := List.mem_filter.mp hcat.1
  refine ⟨p.1, hdate.1, ?_⟩
  cases hmk
  refine ⟨hamt, hneg, rfl, rfl, by simpa using hcat.2, ?_⟩
  rcases hod : p.1.opDate with _ | t
  · rw [inReportWindow, hod] at hdate
    simp at hdate
  · have hw := hdate.2
    rw [inReportWindow, hod] at hw
    simp only [Bool.and_eq_true] at hw
    exact ⟨t, rfl, hw.1, hw.2⟩

theorem pyIn_empty (s : String) : pyIn "" s = true := by
  rw [pyIn, show "".data = ([] : List Char) from by decide]
  simp [hasSubChars]

theorem matchesQuery_of_empty (t : STxn) : matchesQuery (pyLower "") t = true := by
  rw [show pyLower "" = "" from by decide, matchesQuery, pyIn_empty, pyIn_empty]
  rfl

/-- C3 counterexample: searching one transaction with the empty query
returns one entry, not zero — in Python every string contains the empty
string, so `simple_search_transactions(T, "")` keeps every row. -/
theorem claim_C3_counterexample :
    (simple_search_transactions [txnA] "").length = 1 ∧ 1 ≠ 0 := by
  refine ⟨?_, by decide⟩
  decide

/-- C3 (amended): searching with the empty query returns the whole table
— every transaction matches, each formatted in place, so the result has
one entry per input transaction (rather than the empty sequence the spec
stipulates). -/
theorem claim_C3 (T : List STxn) :
    simple_search_transactions T "" = T.map mkFoundEntry ∧
    (simple_search_transactions T "").length = T.length := by
  have hfil : T.filter (matchesQuery (pyLower "")) = T :=
    List.filter_eq_self.mpr (fun t _ => matchesQuery_of_empty t)
  constructor
  · rw [simple_search_transactions, hfil]
  · rw [simple_search_transactions, hfil, List.length_map]

/-- C3 witness: the amended statement at a one-transaction table. -/
theorem claim_C3_witness :
    simple_search_transactions [txnA] "" = [txnA].map mkFoundEntry ∧
    (simple_search_transactions [txnA] "").length = [txnA].length :=
  claim_C3 [txnA]

/-- C4 counterexample: the query "xyz" matches a transaction through its
category, and the returned entry's description "abc" does not contain the
query — the match is on description OR category, not description alone. -/
theorem claim_C4_counterexample :
    (simple_search_transactions [txnB] "xyz").map FoundEntry.description
        = [StrCell.val "abc"] ∧
    pyIn (pyLower "xyz") (pyLower "abc") = false := by
  constructor
  · decide
  · decide

/-- C4 (amended): the search result is the in-order image of a sublist of
the input, and every selected transaction's description OR category,
case-folded, contains the case-folded query (the source tests both
fields, not the description alone). -/
theorem claim_C4 (T : List STxn) (q : String) :
    ∃ ts : List STxn, ts.Sublist T ∧
      (∀ t ∈ ts,
        pyIn (pyLower q) (pyLower t.description.asMatchStr) = true ∨
        pyIn (pyLower q) (pyLower t.category.asMatchStr) = true) ∧
      simple_search_transactions T q = ts.map mkFoundEntry := by
  refine ⟨T.filter (matchesQuery (pyLower q)), List.filter_sublist T, ?_, rfl⟩
  intro t ht
  have hm := (List.mem_filter.mp ht).2
  rw [matchesQuery] at hm
  simpa using Bool.or_eq_true _ _ ▸ hm

/-- C4 witness: the amended statement at a concrete table and query. -/
theorem claim_C4_witness :
    ∃ ts : List STxn, ts.Sublist [txnA] ∧
      (∀ t ∈ ts,
        pyIn (pyLower "cafe") (pyLower t.description.asMatchStr) = true ∨
        pyIn (pyLower "cafe") (pyLower t.category.asMatchStr) = true) ∧
      simple_search_transactions [txnA] "cafe" = ts.map mkFoundEntry :=
  claim_C4 [txnA] "cafe"

/-- C8: the code bug.  With the table empty and reference time
2024-07-05 14:00:00, the main-page greeting is the fallback "Привет!",
not the hour-14 "day" bucket ("Добрый день"): views.py passes the parsed
`datetime` object to `utils.get_greeting`, whose own `strptime` call then
raises `TypeError` (it requires a string), which the blanket
`except Exception` of `generate_main_page_json` turns into the fallback.
The claim's bucketed greeting is what `get_greeting` would return on the
hour — the code never reaches it. -/
theorem claim_C8_bug :
    generate_main_page_greeting (some ⟨2024, 7, 5, 14, 0, 0⟩) = "Привет!" ∧
    get_greeting (PyTimeArg.dt ⟨2024, 7, 5, 14, 0, 0⟩)
        = Except.error PyExn.typeError ∧
    greetingOfHour 14 = "Добрый день" ∧
    ("Привет!" : String) ≠ "Добрый день" := by
  refine ⟨by decide, rfl, by decide, by decide⟩

/-- C10: the month-to-date filter keeps exactly the rows whose operation
timestamp lies between midnight on the first of the end date's month and
the end date, inclusive; the columns survive; and a malformed end-date
string yields the empty frame (not a fallback to the current time). -/
theorem claim_C10 :
    (∀ (df : DataFrame) (endd : DateTime) (r : Row),
        hasCol df "Дата операции" = true → df.dateTyped = true →
        (r ∈ (filter_operations_by_month df (some endd)).rows ↔
          r ∈ df.rows ∧ ∃ t, r.opDate = some t ∧
            DateTime.le (startOfMonth endd) t = true ∧
            DateTime.le t endd = true)) ∧
    (∀ (df : DataFrame) (endd : DateTime),
        hasCol df "Дата операции" = true → df.dateTyped = true →
        (filter_operations_by_month df (some endd)).cols = df.cols) ∧
    (∀ df : DataFrame, filter_operations_by_month df none = emptyDF) := by
  refine ⟨?_, ?_, fun df => rfl⟩
  · intro df endd r h1 h2
    rw [filter_operations_by_month]
    rw [if_neg (by rw [h1, h2]; simp)]
    rw [List.mem_filter]
    constructor
    · rintro ⟨hmem, hw⟩
      refine ⟨hmem, ?_⟩
      rcases hod : r.opDate with _ | t
      · rw [inMonthWindow, hod] at hw
        simp at hw
      · rw [inMonthWindow, hod] at hw
        simp only [Bool.and_eq_true] at hw
        exact ⟨t, rfl, hw.1, hw.2⟩
    · rintro ⟨hmem, t, hod, hlo, hhi⟩
      refine ⟨hmem, ?_⟩
      simp [inMonthWindow, hod, hlo, hhi]
  · intro df endd h1 h2
    rw [filter_operations_by_month]
    rw [if_neg (by rw [h1, h2]; simp)]

/-- C10 witness: the characterization at a concrete frame, end date and
row inside the window. -/
theorem claim_C10_witness :
    rowC10a ∈ (filter_operations_by_month dfC10 (some endC10)).rows ↔
      rowC10a ∈ dfC10.rows ∧ ∃ t, rowC10a.opDate = some t ∧
        DateTime.le (startOfMonth endC10) t = true ∧
        DateTime.le t endC10 = true :=
  claim_C10.1 dfC10 endC10 rowC10a (by decide) (by decide)

/-- C5: every row returned by the category spend aggregator for an
explicit well-formed reference date has a strictly negative coerced
amount, a category matching the request under case-folding (through the
`astype(str).str.lower()` coercion), an operation date inside the
inclusive window from `d` minus three calendar months to `d`, and stems
from a row of the input table. -/
theorem claim_C5 (df : DataFrame) (c : String) (d now : DateTime)
    (l : List ReportRow) (rr : ReportRow)
    (hok : spending_by_category df c (some (some d)) now = Except.ok l)
    (h : rr ∈ l) :
    rr.amount < 0 ∧
    pyLower (pyStrOfCell rr.category) = pyLower c ∧
    (∃ t, rr.opDate = some t ∧
      DateTime.le (subtractThreeMonths d) t = true ∧ DateTime.le t d = true) ∧
    ∃ r0 ∈ df.rows, r0.amount = some rr.amount ∧ rr.category = r0.category := by
  obtain ⟨r0, hmem, hamt, hneg, hod, hcat, hlow, t, hts, hlo, hhi⟩ := spending_mem hok h
  exact ⟨hneg, hlow, ⟨t, hts, hlo, hhi⟩, r0, hmem, hamt, hcat⟩

/-- C5 witness: the window properties at a concrete frame, category and
reference date. -/
theorem claim_C5_witness :
    ((-100 : ℚ) < 0) ∧
    pyLower (pyStrOfCell (some "food")) = pyLower "Food" ∧
    (∃ t, (some (⟨2024, 7, 1, 10, 0, 0⟩ : DateTime) : Option DateTime) = some t ∧
      DateTime.le (subtractThreeMonths endC5) t = true ∧
      DateTime.le t endC5 = true) ∧
    (∃ r0 ∈ dfC5.rows, r0.amount = some (-100 : ℚ) ∧
      (some "food" : Option String) = r0.category) :=
  claim_C5 dfC5 "Food" endC5 nowC5
    [⟨some ⟨2024, 7, 1, 10, 0, 0⟩, -100, some "food", some "Shop A", none⟩]
    ⟨some ⟨2024, 7, 1, 10, 0, 0⟩, -100, some "food", some "Shop A", none⟩
    rfl (by decide)

/-- C7 (amended): the core aggregators fail on exactly one path.  An
empty table yields an empty result everywhere; a missing CHECKED column
('Дата операции', 'Категория' or 'Сумма операции' for the category
report, 'Номер карты' for the card summaries, any of the fifteen for the
top-N list) yields an empty result; a malformed reference-date string
makes the category spend aggregator use the current time; report rows
come only from rows whose amount coerces to a (negative) number.  But an
empty QUERY is not an empty-result case — it matches every transaction —
and the category report's final five-column projection (reports.py line
122) never checks 'Описание' or 'MCC': with one of them absent it either
returns an empty result (when no expense survives) or raises `KeyError`
to its caller, as the concrete frame `dfNoDesc` exhibits. -/
theorem claim_C7 :
    (∀ (cols : List String) (dt : Bool) (c : String)
        (dp : Option (Option DateTime)) (now : DateTime),
        spending_by_category ⟨cols, dt, []⟩ c dp now = Except.ok []) ∧
    (∀ (df : DataFrame) (c : String) (dp : Option (Option DateTime)) (now : DateTime),
        hasCol df "Дата операции" = false →
        spending_by_category df c dp now = Except.ok []) ∧
    (∀ (df : DataFrame) (c : String) (dp : Option (Option DateTime)) (now : DateTime),
        hasCol df "Категория" = false →
        spending_by_category df c dp now = Except.ok []) ∧
    (∀ (df : DataFrame) (c : String) (dp : Option (Option DateTime)) (now : DateTime),
        hasCol df "Сумма операции" = false →
        spending_by_category df c dp now = Except.ok []) ∧
    (∀ (df : DataFrame) (c : String) (now : DateTime),
        spending_by_category df c (some none) now
          = spending_by_category df c (some (some now)) now) ∧
    (∀ (cols : List String) (dt : Bool), analyze_card_data ⟨cols, dt, []⟩ = []) ∧
    (∀ df : DataFrame, hasCol df "Номер карты" = false → analyze_card_data df = []) ∧
    (∀ (cols : List String) (dt : Bool) (n : ℕ),
        get_top_transactions ⟨cols, dt, []⟩ n = []) ∧
    (∀ (df : DataFrame) (n : ℕ),
        hasCol df "MCC" = false → get_top_transactions df n = []) ∧
    (∀ q : String, simple_search_transactions [] q = []) ∧
    (∀ T : List STxn, (simple_search_transactions T "").length = T.length) ∧
    (∀ (df : DataFrame) (c : String) (dp : Option (Option DateTime)) (now : DateTime)
        (l : List ReportRow) (rr : ReportRow),
        spending_by_category df c dp now = Except.ok l → rr ∈ l →
          ∃ r0 ∈ df.rows, r0.amount = some rr.amount ∧ rr.amount < 0) ∧
    (∀ (df : DataFrame) (c : String) (dp : Option (Option DateTime)) (now : DateTime)
        (l : List ReportRow),
        spending_by_category df c dp now = Except.ok l →
        (hasCol df "Описание" = false ∨ hasCol df "MCC" = false) → l = []) ∧
    spending_by_category dfNoDesc "Food" (some (some endC5)) nowC5
      = Except.error PyExn.keyError := by
  refine ⟨fun cols dt c dp now => rfl, ?_, ?_, ?_, fun df c now => rfl, ?_, ?_, ?_, ?_,
    fun q => rfl, ?_, ?_, ?_, rfl⟩
  · intro df c dp now h
    simp [spending_by_category, h, ite_self]
  · intro df c dp now h
    simp [spending_by_category, h, ite_self]
  · intro df c dp now h
    simp [spending_by_category, h, ite_self]
  · intro cols dt
    simp [analyze_card_data, expenseRows, toNumericRows, ite_self]
  · intro df h
    simp [analyze_card_data, h]
  · intro cols dt n
    simp [get_top_transactions, toNumericRows, sortByAbsDesc,
      List.mergeSort_nil, ite_self]
  · intro df n h
    have hall : (requiredTopCols.all (fun c => hasCol df c)) = false := by
      apply List.all_eq_false.mpr
      exact ⟨"MCC", by decide, by simp [h]⟩
    simp [get_top_transactions, hall]
  · intro T
    rw [simple_search_transactions,
      List.filter_eq_self.mpr (fun t _ => matchesQuery_of_empty t), List.length_map]
  · intro df c dp now l rr hok h
    obtain ⟨r0, hmem, hamt, hneg, _⟩ := spending_mem hok h
    exact ⟨r0, hmem, hamt, hneg⟩
  · intro df c dp now l hok hmiss
    simp only [spending_by_category] at hok
    split_ifs at hok with c1 c2 c3 c4 c5 c6 c7 c8
    all_goals try (injection hok with hl; exact hl.symm)
    have hproj := List.all_eq_true.mp c8
    have hdesc : hasCol df "Описание" = true := hproj "Описание" (by decide)
    have hmcc : hasCol df "MCC" = true := hproj "MCC" (by decide)
    rcases hmiss with hm | hm
    · rw [hm] at hdesc
      exact absurd hdesc (by simp)
    · rw [hm] at hmcc
      exact absurd hmcc (by simp)

/-- C7 witness: the degenerate, error and provenance cases at concrete
frames. -/
theorem claim_C7_witness :
    spending_by_category dfNoDate "Food" none nowC5 = Except.ok [] ∧
    analyze_card_data dfNoCard = [] ∧
    get_top_transactions dfC6 5 = [] ∧
    (∃ r0 ∈ dfC5.rows, r0.amount = some (-100 : ℚ) ∧ ((-100 : ℚ) < 0)) ∧
    spending_by_category dfNoDesc "Food" (some (some endC5)) nowC5
      = Except.error PyExn.keyError := by
  obtain ⟨h1, h2, h3, h4, h5, h6, h7, h8, h9, h10, h11, h12, h13, h14⟩ := claim_C7
  exact ⟨h2 dfNoDate "Food" none nowC5 (by decide),
    h7 dfNoCard (by decide),
    h9 dfC6 5 (by decide),
    h12 dfC5 "Food" (some (some endC5)) nowC5
      [⟨some ⟨2024, 7, 1, 10, 0, 0⟩, -100, some "food", some "Shop A", none⟩]
      ⟨some ⟨2024, 7, 1, 10, 0, 0⟩, -100, some "food", some "Shop A", none⟩
      rfl (by decide),
    h14⟩

/-- C9: the aggregators are pure functions of their explicit inputs in
this embedding — faithfully so, because every in-place pandas operation
in the source (`dropna(inplace=True)`, column assignment) acts on a
`.copy()` of the input frame, never on the caller's object.  Repeated
calls with identical explicit inputs therefore coincide, and with an
explicit well-formed reference date the category report does not depend
on the clock at all. -/
theorem claim_C9 :
    (∀ (df : DataFrame) (c : String) (d now1 now2 : DateTime),
        spending_by_category df c (some (some d)) now1
          = spending_by_category df c (some (some d)) now2) ∧
    (∀ (df : DataFrame) (c : String) (dp : Option (Option DateTime)) (now : DateTime),
        spending_by_category df c dp now = spending_by_category df c dp now) ∧
    (∀ df : DataFrame, analyze_card_data df = analyze_card_data df) ∧
    (∀ (df : DataFrame) (n : ℕ), get_top_transactions df n = get_top_transactions df n) ∧
    (∀ (T : List STxn) (q : String),
        simple_search_transactions T q = simple_search_transactions T q) :=
  ⟨fun _ _ _ _ _ => rfl, fun _ _ _ _ => rfl, fun _ => rfl, fun _ _ => rfl, fun _ _ => rfl⟩

theorem analyze_dfC1_eval : analyze_card_data dfC1 = [⟨"1234", 100, 1⟩] := by
  rw [analyze_card_data, if_neg (by decide), if_neg (by decide)]
  rw [show expenseRows dfC1.rows = [(rowC1, -100)] from by decide]
  rw [show cardKeys [(rowC1, (-100 : ℚ))] = ["1234"] from by
        rw [cardKeys,
          show ([(rowC1, (-100 : ℚ))].filterMap (fun p => p.1.card)).dedup = ["1234"] from by decide,
          List.mergeSort_singleton]]
  rw [List.map_cons, List.map_nil]
  have hgrp : cardGroupAmounts [(rowC1, (-100 : ℚ))] "1234" = [(-100 : ℚ)] := by decide
  have htk : String.takeRight "1234" 4 = "1234" := by decide
  simp only [mkCardSummary, hgrp, htk]
  norm_num [round2, roundHalfEven]

/-- C1 counterexample: a card with one expense of 100 whose cashback cell
holds 50.  `analyze_card_data` reports cashback 1 (one unit per 100
spent), while the sum of the card's cashback-field values is 50. -/
theorem claim_C1_counterexample :
    analyze_card_data dfC1 = [⟨"1234", 100, 1⟩] ∧
    specCashbackFieldSum dfC1 "1234" = 50 ∧
    (1 : ℚ) ≠ 50 := by
  refine ⟨analyze_dfC1_eval, ?_, by norm_num⟩
  rw [specCashbackFieldSum,
    show dfC1.rows.filter (fun r => r.card == some "1234") = [rowC1] from by decide]
  simp only [List.map_cons, List.map_nil,
    show rowC1.cashback = some (50 : ℚ) from rfl, Option.getD_some]
  norm_num

/-- C1 (amended): every card summary reports `total_spent` as the rounded
sum of the absolute values of the card's negative coercible amounts, and
`cashback` as `round(total / 100, 2)` — one unit of cashback per 100
spent.  The cashback column of the table is never consulted. -/
theorem claim_C1 (df : DataFrame) (e : CardSummary) (h : e ∈ analyze_card_data df) :
    ∃ k : String,
      e.last_digits = String.takeRight k 4 ∧
      e.total_spent = round2 (cardAbsNegTotal df k) ∧
      e.cashback = round2 (cardAbsNegTotal df k / 100) := by
  rw [analyze_card_data] at h
  split_ifs at h
  · exact absurd h (List.not_mem_nil e)
  · exact absurd h (List.not_mem_nil e)
  rcases List.mem_map.mp h with ⟨k, hk, hmk⟩
  refine ⟨k, ?_, ?_, ?_⟩
  · rw [← hmk]
    rfl
  · rw [← hmk]
    simp only [mkCardSummary]
    rw [card_group_total]
  · rw [← hmk]
    simp only [mkCardSummary]
    rw [card_group_total]

/-- C1 witness: the amended statement at the concrete frame. -/
theorem claim_C1_witness :
    ∃ k : String,
      ("1234" : String) = String.takeRight k 4 ∧
      (100 : ℚ) = round2 (cardAbsNegTotal dfC1 k) ∧
      (1 : ℚ) = round2 (cardAbsNegTotal dfC1 k / 100) :=
  claim_C1 dfC1 ⟨"1234", 100, 1⟩ (by rw [analyze_dfC1_eval]; exact List.mem_singleton.mpr rfl)

theorem get_top_dfTop_eval :
    get_top_transactions dfTop 5 = [⟨none, 500, "Зарплата", "Доход"⟩] := by
  rw [get_top_transactions, if_neg (by decide)]
  rw [show toNumericRows dfTop.rows = [(rowC2, 500)] from by decide]
  rw [sortByAbsDesc, List.mergeSort_singleton]
  simp only [List.take_succ_cons, List.take_nil, List.map_cons, List.map_nil]
  have h1 : mkTopEntry (rowC2, 500) = ⟨none, 500, "Зарплата", "Доход"⟩ := by
    rw [mkTopEntry]
    norm_num [show rowC2.opDate = none from rfl,
      show rowC2.category = some "Зарплата" from rfl,
      show rowC2.mcc = (none : Option String) from rfl,
      show rowC2.description = some "Доход" from rfl,
      combineCategoryMcc, round2, roundHalfEven]
  rw [h1]

/-- C2 counterexample: a table whose single coercible row has the
positive amount 500 (a credit).  `get_top_transactions` still returns it
— the function never restricts to negative-amount rows. -/
theorem claim_C2_counterexample :
    (get_top_transactions dfTop 5).map TopEntry.amount = [500] ∧
    (∀ r ∈ dfTop.rows, r.amount = some 500) ∧
    ¬ ((500 : ℚ) < 0) := by
  refine ⟨?_, by decide, by norm_num⟩
  rw [get_top_dfTop_eval]
  rfl

/-- C2 (amended): the top-N selector ranks ALL numeric-coercible rows —
credits included, with no restriction to expenses — by absolute amount
descending and returns at most the first N formatted entries; the ranking
keys of the selected rows are non-increasing, and every entry stems from
a coercible row of the table. -/
theorem claim_C2 (df : DataFrame) (n : ℕ) :
    (get_top_transactions df n).length ≤ n ∧
    (((sortByAbsDesc (toNumericRows df.rows)).take n).map
        (fun p => |p.2|)).Pairwise (· ≥ ·) ∧
    (∀ e ∈ get_top_transactions df n, ∃ p : Row × ℚ,
      p.1 ∈ df.rows ∧ p.1.amount = some p.2 ∧ e = mkTopEntry p) := by
  refine ⟨?_, ?_, ?_⟩
  · rw [get_top_transactions]
    split_ifs
    · simp
    · rw [List.length_map]
      exact List.length_take_le n _
  · have hsorted : (sortByAbsDesc (toNumericRows df.rows)).Pairwise
        (fun x y => (decide (|y.2| ≤ |x.2|)) = true) := by
      apply List.sorted_mergeSort
      · intro a b c hab hbc
        simp only [decide_eq_true_eq] at *
        exact le_trans hbc hab
      · intro a b
        rcases le_total |a.2| |b.2| with h | h
        · simp [h]
        · simp [h]
    have htake : ((sortByAbsDesc (toNumericRows df.rows)).take n).Pairwise
        (fun x y => (decide (|y.2| ≤ |x.2|)) = true) :=
      List.Pairwise.sublist (List.take_sublist n _) hsorted
    rw [List.pairwise_map]
    refine htake.imp ?_
    intro a b hab
    simpa using hab
  · intro e he
    rw [get_top_transactions] at he
    split_ifs at he
    · exact absurd he (List.not_mem_nil e)
    rcases List.mem_map.mp he with ⟨p, hp, hmk⟩
    have hp2 : p ∈ sortByAbsDesc (toNumericRows df.rows) :=
      (List.take_sublist n _).mem hp
    have hp3 : p ∈ toNumericRows df.rows := by
      rw [sortByAbsDesc] at hp2
      exact (List.mergeSort_perm _ _).mem_iff.mp hp2
    have hchar := mem_toNumericRows.mp hp3
    exact ⟨p, hchar.1, hchar.2, hmk.symm⟩

/-- C2 witness: the amended statement at a one-expense frame. -/
theorem claim_C2_witness :
    ∃ p : Row × ℚ, p.1 ∈ dfTopW.rows ∧ p.1.amount = some p.2 ∧
      mkTopEntry (rowC2w, -3) = mkTopEntry p :=
  (claim_C2 dfTopW 5).2.2 (mkTopEntry (rowC2w, -3)) (by
    rw [get_top_transactions, if_neg (by decide),
      show toNumericRows dfTopW.rows = [(rowC2w, -3)] from by decide,
      sortByAbsDesc, List.mergeSort_singleton]
    exact List.mem_singleton.mpr rfl)

theorem analyze_dfC6f_eval : analyze_card_data dfC6f = [⟨"9999", 100, 1⟩] := by
  rw [analyze_card_data, if_neg (by decide), if_neg (by decide)]
  rw [show expenseRows dfC6f.rows = [(rowC6, -100)] from by decide]
  rw [show cardKeys [(rowC6, (-100 : ℚ))] = ["9999"] from by
        rw [cardKeys,
          show ([(rowC6, (-100 : ℚ))].filterMap (fun p => p.1.card)).dedup = ["9999"] from by decide,
          List.mergeSort_singleton]]
  rw [List.map_cons, List.map_nil]
  have hgrp : cardGroupAmounts [(rowC6, (-100 : ℚ))] "9999" = [(-100 : ℚ)] := by decide
  have htk : String.takeRight "9999" 4 = "9999" := by decide
  simp only [mkCardSummary, hgrp, htk]
  norm_num [round2, roundHalfEven]

/-- C6 counterexample: a window-filtered table whose only row is a
FAILED-status expense of 100.  The card summaries still count it, so the
summed `total_spent` is 100, while the sum of absolute negative amounts
over the OK-status rows of the window is 0 — the aggregator applies no
status filter. -/
theorem claim_C6_counterexample :
    ((analyze_card_data (filter_operations_by_month dfC6 (some endC6))).map
        CardSummary.total_spent).sum = 100 ∧
    specOkAbsNegSum (filter_operations_by_month dfC6 (some endC6)) = 0 ∧
    (100 : ℚ) ≠ 0 := by
  have hF : filter_operations_by_month dfC6 (some endC6) = dfC6f := by decide
  refine ⟨?_, ?_, by norm_num⟩
  · rw [hF, analyze_dfC6f_eval]
    norm_num
  · rw [hF]
    decide

/-- C6 (amended): on any frame carrying the card and amount columns, in
which every row bears a card identifier and every coercible amount is a
whole number of hundredths (so the per-card 2-decimal rounding is exact),
the sum of `total_spent` over all card summaries equals the sum of the
absolute values of the negative coercible amounts over ALL rows — with no
status restriction: the aggregator never consults the status column, so
spend is conserved across the per-card partition only relative to the
unfiltered rows. -/
theorem claim_C6 (df : DataFrame)
    (h1 : hasCol df "Номер карты" = true)
    (h2 : hasCol df "Сумма операции" = true)
    (h3 : ∀ r ∈ df.rows, r.card.isSome = true)
    (h4 : ∀ r ∈ df.rows, ∀ a : ℚ, r.amount = some a → ∃ z : ℤ, a = (z : ℚ) / 100) :
    ((analyze_card_data df).map CardSummary.total_spent).sum
      = totalAbsNegAmounts df := by
  rw [analyze_card_data, if_neg (by simp [h1, h2])]
  by_cases hemp : (expenseRows df.rows).isEmpty
  · have hnil : expenseRows df.rows = [] := by
      cases hl : expenseRows df.rows with
      | nil => rfl
      | cons x xs => rw [hl] at hemp; simp at hemp
    rw [if_pos hemp]
    have hlist := expense_all_list df.rows
    rw [hnil] at hlist
    rw [totalAbsNegAmounts, ← hlist]
    simp
  · rw [if_neg hemp, List.map_map]
    have hterm : ∀ k, (CardSummary.total_spent ∘ mkCardSummary (expenseRows df.rows)) k
        = round2 (cardAbsNegTotal df k) := by
      intro k
      simp only [Function.comp_apply, mkCardSummary]
      rw [card_group_total]
    rw [List.map_congr_left (fun k _ => hterm k)]
    have hhund : ∀ k : String, ∃ z : ℤ, cardAbsNegTotal df k = (z : ℚ) / 100 := by
      intro k
      apply sum_hundredths
      intro x hx
      rcases List.mem_map.mp hx with ⟨a, ha, hax⟩
      have ha2 := List.mem_filter.mp ha
      rcases List.mem_filterMap.mp ha2.1 with ⟨r0, hr0, hr0a⟩
      have hr0mem := (List.mem_filter.mp hr0).1
      obtain ⟨z, hz⟩ := h4 r0 hr0mem a hr0a
      refine ⟨-z, ?_⟩
      rw [← hax, hz]
      push_cast
      ring
    have hround : ∀ k : String, round2 (cardAbsNegTotal df k) = cardAbsNegTotal df k := by
      intro k
      obtain ⟨z, hz⟩ := hhund k
      rw [hz, round2_hundredth]
    rw [List.map_congr_left (fun k _ => hround k)]
    have hperm : (cardKeys (expenseRows df.rows)).Perm
        ((expenseRows df.rows).filterMap (fun p => p.1.card)).dedup :=
      List.mergeSort_perm _ _
    rw [(hperm.map (fun k => cardAbsNegTotal df k)).sum_eq]
    have hfib : ∀ k : String, cardAbsNegTotal df k
        = ((List.filter (fun p => p.1.card == some k)
            (expenseRows df.rows)).map (fun p => -p.2)).sum := by
      intro k
      rw [cardAbsNegTotal, ← expense_group_list]
    rw [List.map_congr_left (fun k _ => hfib k)]
    rw [fiberwise_sum (fun p => p.1.card) (fun p => -p.2) (expenseRows df.rows) _
      (List.nodup_dedup _) ?_]
    · rw [expense_all_list]
      rfl
    · intro p hp
      have hm := mem_expenseRows hp
      have hcard := h3 p.1 hm.1
      rcases hc : p.1.card with _ | k
      · rw [hc] at hcard
        simp at hcard
      · refine ⟨k, ?_, hc⟩
        exact List.mem_dedup.mpr (List.mem_filterMap.mpr ⟨p, hp, hc⟩)

/-- C6 witness: the conservation identity at a one-expense frame whose
hypotheses hold. -/
theorem claim_C6_witness :
    ((analyze_card_data dfC6w).map CardSummary.total_spent).sum
      = totalAbsNegAmounts dfC6w :=
  claim_C6 dfC6w (by decide) (by decide) (by decide)
    (fun r hr a ha => ⟨-200, by
      have hr2 : r = rowC6w := List.mem_singleton.mp hr
      rw [hr2] at ha
      have : a = -2 := by
        have := Option.some.inj ha
        exact this.symm
      rw [this]
      norm_num⟩)

/-- C7 counterexample: the empty query is NOT an empty-result degenerate
case — searching a two-transaction table with the empty query returns two
entries, contradicting the claim that an empty query always yields an
empty result. -/
theorem claim_C7_counterexample :
    (simple_search_transactions [txnA, txnB] "").length = 2 ∧ 2 ≠ 0 := by
  refine ⟨?_, by decide⟩
  decide
